import Mathlib

/-!
Verification of the Semantic_Search_Backend multi-tenant retrieval pipeline.

Shallow embedding of the JavaScript source into Lean 4.  JavaScript strings
are modelled as `List Char` (their UTF-16 character sequences), timestamps as
`Int` milliseconds, similarity scores as `Rat`, thrown `AppError`s as the
error case of `Except`, and every external call (database, OAuth provider,
embedding, vector store, reranker) as an explicit outcome parameter threaded
into the embedded function.
-/

namespace SemanticSearch

instance {ε α : Type} [DecidableEq ε] [DecidableEq α] : DecidableEq (Except ε α) := by
  intro a b
  cases a <;> cases b
  case error.error e e' =>
    exact if h : e = e' then .isTrue (by rw [h]) else .isFalse (by intro he; cases he; exact h rfl)
  case error.ok e v => exact .isFalse (by intro h; cases h)
  case ok.error v e => exact .isFalse (by intro h; cases h)
  case ok.ok v v' =>
    exact if h : v = v' then .isTrue (by rw [h]) else .isFalse (by intro he; cases he; exact h rfl)

/-! ## Tenant index naming — src/services/pineconeIndexService.js -/

/-- The regex class `[a-zA-Z0-9]` used by
`stackApiKey.replace(/[^a-zA-Z0-9]/g, '')`. -/
def isAsciiAlphanum (c : Char) : Bool :=
  (48 ≤ c.toNat && c.toNat ≤ 57) ||
  (65 ≤ c.toNat && c.toNat ≤ 90) ||
  (97 ≤ c.toNat && c.toNat ≤ 122)

/-- ASCII behaviour of JavaScript `String.prototype.toLowerCase` on one
character: `A`–`Z` maps to `a`–`z`, everything else is unchanged. -/
def jsToLower (c : Char) : Char :=
  if 65 ≤ c.toNat && c.toNat ≤ 90 then Char.ofNat (c.toNat + 32) else c

/-- The fixed index-name stem `semantic-search-`. -/
def indexNameStem : List Char := "semantic-search-".toList

/-- `PineconeIndexService.generateIndexName` (pineconeIndexService.js:42-51):
rejects an empty key (falsy), strips non-alphanumerics, glues on the stem,
lowercases, truncates to 45 characters. -/
def generateIndexName (stackApiKey : List Char) : Except String (List Char) :=
  if stackApiKey = [] then
    .error "Stack API key is required"
  else
    .ok ((List.map jsToLower (indexNameStem ++ stackApiKey.filter isAsciiAlphanum)).take 45)

/-- Characters that may appear in a generated index name: lowercase ASCII
alphanumerics and the hyphen. -/
def isIndexNameChar (c : Char) : Bool :=
  (48 ≤ c.toNat && c.toNat ≤ 57) || (97 ≤ c.toNat && c.toNat ≤ 122) || c.toNat = 45

/-- A tenant key on which the naming scheme is collision-free: nonempty,
already lowercase alphanumeric, and short enough to survive truncation
(45 minus the 16-character stem). -/
def safeTenantKey (k : List Char) : Prop :=
  k ≠ [] ∧ k.length ≤ 29 ∧ ∀ c ∈ k, ((48 ≤ c.toNat && c.toNat ≤ 57) || (97 ≤ c.toNat && c.toNat ≤ 122)) = true

/-! ## Credential lifecycle — src/services/tokenService.js (functional module)

The credential store is modelled as the single `OAuthToken` document a
`findOne({ stackApiKey })` returns (`Option TokenRec`), timestamps as integer
milliseconds since epoch. -/

/-- One stored OAuth credential (models/OAuthToken.js plus the `isActive`
flag used by the token services). -/
structure TokenRec where
  accessToken : String
  refreshToken : String
  expiresAt : Int
  lastUsed : Int
  isActive : Bool
  deriving Repr, DecidableEq

/-- A thrown `AppError`: message and HTTP status code. -/
structure AppErr where
  message : String
  status : Nat
  deriving Repr, DecidableEq

/-- Outcome of the provider's `POST /oauth/token` refresh call
(axios): a response body, or a rejection with an HTTP status
(`error.response?.status`), or a transport error with no status. -/
inductive RefreshCallOutcome where
  /-- 2xx body `{access_token, refresh_token?, expires_in?}`. -/
  | ok (accessToken : String) (refreshToken : Option String) (expiresIn : Option Int)
  /-- non-2xx rejection carrying `error.response.status`. -/
  | httpError (status : Nat) (message : String)
  /-- timeout / network failure: `error.response` is undefined. -/
  | transportError (message : String)
  deriving Repr, DecidableEq

/-- `refreshAccessToken` (tokenService.js:242-284).  Returns the result
(new access token or thrown error) together with the store contents after
the call. -/
def refreshAccessToken (store : Option TokenRec) (now : Int)
    (provider : RefreshCallOutcome) : Except AppErr String × Option TokenRec :=
  match store with
  | none =>
      -- `throw new AppError('No refresh token found...', 404)` is raised
      -- inside the try block and rewrapped by the catch (no response status).
      (.error ⟨"Failed to refresh access token: No refresh token found for stack", 500⟩, store)
  | some token =>
      if token.refreshToken = "" then
        (.error ⟨"Failed to refresh access token: No refresh token found for stack", 500⟩, store)
      else
        match provider with
        | .ok access newRefresh expiresIn =>
            if access = "" then
              -- `!tokenData.access_token` → AppError 500, rewrapped by catch
              (.error ⟨"Failed to refresh access token: Invalid token response from Contentstack", 500⟩, store)
            else
              let expiresInVal := match expiresIn with | some e => e | none => 3600
              let token' : TokenRec :=
                { token with
                  accessToken := access
                  refreshToken := match newRefresh with | some r => r | none => token.refreshToken
                  expiresAt := now + expiresInVal * 1000
                  lastUsed := now }
              (.ok access, some token')
        | .httpError status msg =>
            if status = 400 ∨ status = 401 then
              (.error ⟨"Refresh token expired - re-authentication required", 401⟩, store)
            else
              (.error ⟨"Failed to refresh access token: " ++ msg, 500⟩, store)
        | .transportError msg =>
            (.error ⟨"Failed to refresh access token: " ++ msg, 500⟩, store)

/-- Result of `getValidAccessToken`: the returned access token (or thrown
error), the store after the call, and whether a refresh call was issued to
the provider before returning. -/
structure GetTokenResult where
  result : Except AppErr String
  store : Option TokenRec
  refreshCalled : Bool
  deriving Repr

/-- `getValidAccessToken` (tokenService.js:220-240): look the token up; if
`expiresAt <= now + 5min` refresh synchronously and return the refreshed
token, otherwise touch `lastUsed` and return the stored access token. -/
def getValidAccessToken (store : Option TokenRec) (now : Int)
    (provider : RefreshCallOutcome) : GetTokenResult :=
  match store with
  | none => ⟨.error ⟨"No token found for stack. Please authenticate first.", 404⟩, store, false⟩
  | some token =>
      if token.expiresAt ≤ now + 5 * 60 * 1000 then
        ⟨(refreshAccessToken store now provider).1,
          (refreshAccessToken store now provider).2, true⟩
      else
        ⟨.ok token.accessToken, some { token with lastUsed := now }, false⟩

/-! ## Token refresh service — src/services/tokenRefreshService.js

`OAuthToken.findActiveByStackApiKey` (models variant) filters on
`isActive: true, expiresAt: { $gt: now }`. -/

def findActiveByStackApiKey (store : Option TokenRec) (now : Int) : Option TokenRec :=
  match store with
  | some t => if t.isActive ∧ now < t.expiresAt then some t else none
  | none => none

namespace TokenRefreshService

/-- `TokenRefreshService.refreshAccessToken` (tokenRefreshService.js:13-68):
exchange the refresh token at the provider and translate provider failures
into the service's error taxonomy.  Returns the new bundle
`(accessToken, refreshToken, expiresAt)`. -/
def refreshTokenCall (refreshToken : String) (now : Int)
    (provider : RefreshCallOutcome) : Except AppErr (String × String × Int) :=
  match provider with
  | .ok access newRefresh expiresIn =>
      if access = "" then
        -- `!tokenData.access_token` AppError 500 is rewrapped by the catch
        .error ⟨"Failed to refresh access token", 500⟩
      else
        let expiresInVal := match expiresIn with | some e => e | none => 3600
        .ok (access, (match newRefresh with | some r => r | none => refreshToken),
          now + expiresInVal * 1000)
  | .httpError status _ =>
      if status = 400 then .error ⟨"Invalid refresh token - re-authentication required", 401⟩
      else if status = 401 then .error ⟨"Refresh token expired - re-authentication required", 401⟩
      else if status = 403 then .error ⟨"Insufficient permissions to refresh token", 403⟩
      else .error ⟨"Failed to refresh access token", 500⟩
  | .transportError _ => .error ⟨"Failed to refresh access token", 500⟩

/-- `TokenRefreshService.refreshAndUpdateToken` (tokenRefreshService.js:104-131):
look up the active token, refresh it, write the refreshed bundle back with
`isActive: true`. -/
def refreshAndUpdateToken (store : Option TokenRec) (now : Int)
    (provider : RefreshCallOutcome) : Except AppErr TokenRec × Option TokenRec :=
  match findActiveByStackApiKey store now with
  | none => (.error ⟨"No active token found for stack", 404⟩, store)
  | some t =>
      match refreshTokenCall t.refreshToken now provider with
      | .error e => (.error e, store)
      | .ok (access, refresh, expAt) =>
          let t' : TokenRec :=
            { accessToken := access, refreshToken := refresh, expiresAt := expAt,
              lastUsed := now, isActive := true }
          (.ok t', some t')

/-- `TokenRefreshService.getValidAccessToken` (tokenRefreshService.js:133-198):
missing token → 404; inactive token → attempt refresh, 401 on failure;
token expiring within 5 minutes → refresh, and on refresh failure mark the
stored credential inactive and throw 401; otherwise return the stored
access token. -/
def getValidAccessToken (store : Option TokenRec) (now : Int)
    (provider : RefreshCallOutcome) : Except AppErr String × Option TokenRec :=
  match store with
  | none => (.error ⟨"No token found for stack. Please re-authenticate.", 404⟩, none)
  | some token =>
      if ¬token.isActive then
        match refreshAndUpdateToken (some token) now provider with
        | (.ok t', store') => (.ok t'.accessToken, store')
        | (.error _, store') =>
            (.error ⟨"Token is inactive and refresh failed for stack", 401⟩, store')
      else if token.expiresAt ≤ now + 5 * 60 * 1000 then
        match refreshAndUpdateToken (some token) now provider with
        | (.ok t', store') => (.ok t'.accessToken, store')
        | (.error _, _) =>
            -- `OAuthToken.findOneAndUpdate({stackApiKey}, {isActive: false})`
            (.error ⟨"Token refresh failed for stack", 401⟩,
              some { token with isActive := false })
      else
        (.ok token.accessToken, some { token with lastUsed := now })

end TokenRefreshService

/-! ## Concurrent `getValidAccessToken` calls — interleaving model

tokenService.js's `getValidAccessToken` has two suspension points: the
`findOne` read and the `refreshAccessToken` call.  Each concurrent call is
modelled as a small program advancing through those phases; a schedule
chooses which call advances next.  The provider-refresh counter increments
exactly when `refreshAccessToken` reaches its `axios.post` (i.e. a token
with a nonempty refresh token is present). -/

/-- Result of one finished `getValidAccessToken` call. -/
inductive CallResult where
  | tok (accessToken : String)
  | err (e : AppErr)
  deriving Repr, DecidableEq

/-- Program counter of one in-flight `getValidAccessToken` call. -/
inductive CallPc where
  /-- about to run the `findOne` read and the expiry check. -/
  | start
  /-- observed a near-expiry token; about to run `refreshAccessToken`. -/
  | needRefresh
  | done (r : CallResult)
  deriving Repr, DecidableEq

/-- Shared state of the interleaved execution. -/
structure ConcState where
  store : Option TokenRec
  refreshCalls : Nat
  calls : List CallPc
  deriving Repr, DecidableEq

/-- Whether `refreshAccessToken` run against this store reaches the
provider call (`axios.post`). -/
def refreshReachesProvider (store : Option TokenRec) : Bool :=
  match store with
  | some t => t.refreshToken ≠ ""
  | none => false

/-- Advance call `i` by one phase. -/
def stepCall (now : Int) (provider : RefreshCallOutcome) (s : ConcState) (i : Nat) :
    ConcState :=
  match s.calls.get? i with
  | some .start =>
      match s.store with
      | none =>
          { s with calls := s.calls.set i (.done (.err ⟨"No token found for stack. Please authenticate first.", 404⟩)) }
      | some token =>
          if token.expiresAt ≤ now + 5 * 60 * 1000 then
            { s with calls := s.calls.set i .needRefresh }
          else
            { s with
              store := some { token with lastUsed := now }
              calls := s.calls.set i (.done (.tok token.accessToken)) }
  | some .needRefresh =>
      let (res, store') := refreshAccessToken s.store now provider
      { store := store'
        refreshCalls := s.refreshCalls + (if refreshReachesProvider s.store then 1 else 0)
        calls := s.calls.set i (.done (match res with | .ok a => .tok a | .error e => .err e)) }
  | _ => s

/-- Run a schedule: the list names, in order, which call advances next. -/
def runSchedule (now : Int) (provider : RefreshCallOutcome) (s : ConcState)
    (schedule : List Nat) : ConcState :=
  schedule.foldl (stepCall now provider) s

/-! ## Vector search — src/services/vectorSearchService.js -/

/-- One Pinecone match as returned by `index.query`: id, similarity score,
and the metadata fields the service reads back. -/
structure PineMatch where
  id : String
  score : Rat
  metaText : Option String
  metaContentType : Option String
  metaLocale : Option String
  deriving Repr, DecidableEq

/-- One element of the list `VectorSearchService.search` returns
(vectorSearchService.js:206-215), possibly decorated later by the
reranker. -/
structure SearchResult where
  id : String
  score : Rat
  text : String
  contentType : String
  locale : String
  rerankScore : Option Rat := none
  originalScore : Option Rat := none
  deriving Repr, DecidableEq

/-- The defaulted metadata projection `match => ({id, score, text: ... || '',
contentType: ... || 'unknown', locale: ... || 'en-us'})`. -/
def toSearchResult (m : PineMatch) : SearchResult :=
  { id := m.id, score := m.score, text := m.metaText.getD "",
    contentType := m.metaContentType.getD "unknown",
    locale := m.metaLocale.getD "en-us" }

namespace VectorSearchService

/-- `VectorSearchService.search` (vectorSearchService.js:174-232).  The
Pinecone `index.query` call is the `provider` outcome.  The second
component of the result is the `topK` of the query actually issued to the
vector store (`none` when a validation failure prevented any query). -/
def search (queryEmbedding : List Rat) (topK : Int)
    (metadataFilters : List (String × String)) (similarityThreshold : Rat)
    (provider : Except String (List PineMatch)) :
    Except AppErr (List SearchResult) × Option Int :=
  if queryEmbedding = [] then
    (.error ⟨"Query embedding must be a non-empty array", 400⟩, none)
  else if topK < 1 ∨ topK > 100 then
    (.error ⟨"topK must be between 1 and 100", 400⟩, none)
  else
    match provider with
    | .error _ => (.error ⟨"Vector search failed", 500⟩, some topK)
    | .ok found =>
        (.ok ((found.filter (fun m => similarityThreshold ≤ m.score)).map toSearchResult),
          some topK)

end VectorSearchService

/-! ## Reranker — src/services/rerankerService.js -/

/-- One item of the Cohere rerank response body's `results` array. -/
structure RankedItem where
  index : Nat
  relevance_score : Rat
  deriving Repr, DecidableEq

/-- `rerankResults` (rerankerService.js:5-71).  `provider` is the axios call
to `/rerank`: `.error` for a rejected call (provider error / timeout),
`.ok none` for a 2xx response whose body lacks `results` (malformed),
`.ok (some items)` for a well-formed response. -/
def rerankResults (query : String) (results : List SearchResult) (topK : Int)
    (provider : Except String (Option (List RankedItem))) :
    Except AppErr (List SearchResult) :=
  if query = "" then
    .error ⟨"Query is required and must be a string", 400⟩
  else if results = [] then
    .ok results
  else
    let documents := (results.map (·.text)).filter (fun t => t ≠ "")
    if documents = [] then
      .ok results
    else
      match provider with
      | .error _ => .ok results      -- catch: "Reranking failed, returning original results"
      | .ok none => .ok results      -- "No rerank results, returning original results"
      | .ok (some items) =>
          -- `results[result.index]`: an out-of-range index crashes on
          -- `originalResult.score` inside the try, and the catch again
          -- returns the original results.
          match items.mapM (fun it =>
              (results.get? it.index).map (fun orig =>
                { orig with
                  rerankScore := some it.relevance_score
                  originalScore := some orig.score })) with
          | some reranked => .ok reranked
          | none => .ok results

/-! ## Retrieval orchestrator — `semanticSearch`
(features/search controller; src/unnamed/part_027:1176-1290 and its twin in
part_030).  Real time (latency fields) is abstracted away; the telemetry
record keeps the fields the claims speak about. -/

/-- The claim-relevant fields of one `SearchLog` document built by
`logSearch` (shared/utils/searchHelpers.js:54-76). -/
structure SearchLogRec where
  query : String
  resultsCount : Nat
  success : Bool
  errorMessage : Option String
  deriving Repr, DecidableEq

/-- One enriched result: `{uid, contentType, similarity, rerankScore,
...entry}` (searchHelpers.js:28-35); the fetched entry body is opaque. -/
structure EnrichedResult where
  uid : String
  contentType : String
  similarity : Rat
  rerankScore : Option Rat
  entry : String
  deriving Repr, DecidableEq

/-- `enrichResultsWithContentstackData` (searchHelpers.js:6-51) with the
tenant key present: fetch each hit's live entry; hits whose fetch fails or
returns nothing are dropped, order is preserved. -/
def enrichResults (results : List SearchResult)
    (fetch : String → Except String (Option String)) : List EnrichedResult :=
  results.filterMap fun r =>
    match fetch r.id with
    | .ok (some entry) =>
        some ⟨r.id, r.contentType, r.score, r.rerankScore, entry⟩
    | .ok none => none
    | .error _ => none

/-- External-call outcomes consumed by one `semanticSearch` request. -/
structure SearchOracles where
  /-- `embeddingsService.generateTextEmbedding(query, 'search_query')`:
  a thrown error, or `null`, or the embedding. -/
  embed : Except AppErr (Option (List Rat))
  /-- the Pinecone query, as a function of the issued `topK`. -/
  vsearch : Int → Except String (List PineMatch)
  /-- the Cohere rerank call. -/
  rerank : Except String (Option (List RankedItem))
  /-- `contentstackService.fetchEntryByUid` per result id. -/
  fetch : String → Except String (Option String)

/-- The JSON body `semanticSearch` answers with. -/
structure SearchResponse where
  success : Bool
  query : String
  results : List EnrichedResult
  count : Nat
  message : Option String
  totalResults : Nat
  reranked : Bool
  deriving Repr, DecidableEq

/-- Observable trace of one `semanticSearch` request: the `topK` of the
vector-store query that was issued (if any) and the telemetry records
written. -/
structure SearchTrace where
  requestedK : Option Int
  logs : List SearchLogRec
  deriving Repr, DecidableEq

/-- The retrieval pipeline `semanticSearch` (part_027:1176-1290):
embed the query, vector-search the bound index for `Math.min(topK * 2, 20)`
candidates at score floor 0.1, short-circuit on an empty candidate set,
rerank, enrich, truncate—log the attempt on every path. -/
def semanticSearch (query : String) (topK : Int) (o : SearchOracles) :
    Except AppErr SearchResponse × SearchTrace :=
  match o.embed with
  | .error e =>
      (.error e, ⟨none, [⟨query, 0, false, some e.message⟩]⟩)
  | .ok none =>
      let e : AppErr := ⟨"Failed to generate query embedding", 500⟩
      (.error e, ⟨none, [⟨query, 0, false, some e.message⟩]⟩)
  | .ok (some emb) =>
      let k := min (topK * 2) 20
      match VectorSearchService.search emb k [] (1 / 10) (o.vsearch k) with
      | (.error e, issued) =>
          (.error e, ⟨issued, [⟨query, 0, false, some e.message⟩]⟩)
      | (.ok vectorResults, issued) =>
          if vectorResults = [] then
            (.ok { success := true, query := query, results := [], count := 0,
                   message := some "No matching entries found.",
                   totalResults := 0, reranked := false },
             ⟨issued, [⟨query, 0, true, none⟩]⟩)
          else
            match rerankResults query vectorResults topK o.rerank with
            | .error e =>
                (.error e, ⟨issued, [⟨query, 0, false, some e.message⟩]⟩)
            | .ok reranked =>
                let fullResults := enrichResults reranked o.fetch
                (.ok { success := true, query := query, results := fullResults,
                       count := fullResults.length, message := none,
                       totalResults := fullResults.length, reranked := true },
                 ⟨issued, [⟨query, fullResults.length, true, none⟩]⟩)

/-! ## Indexing orchestrator — src/services/indexingService.js

One entry's processing is determined by the outcomes of its external calls:
text extraction (`extractTitleAndRTE`, which `prepareEntryForIndexing` wraps),
text embedding, vector upsert, and the image sub-pipeline of
`indexEntryWithImages` (lines 242-264), whose only escaping failure is an
`indexImage` upsert error. -/

/-- Per-entry external-call outcomes. -/
structure EntryProc where
  uid : String
  /-- `extractTitleAndRTE(entry, contentType)`: a thrown error, `null`, or
  the extracted text. -/
  extraction : Except String (Option String)
  /-- `generateTextEmbedding(text, 'search_document')`: thrown, `null`, or
  a vector (consulted only when extraction yielded usable text). -/
  embed : Except String (Option (List Rat))
  /-- `vectorSearchService.indexEntry` upsert (consulted only when a vector
  was returned). -/
  upsert : Except String Unit
  /-- the image sub-pipeline: number of images indexed, or a thrown
  upsert error. -/
  images : Except String Nat
  deriving Repr, DecidableEq

/-- `prepareEntryForIndexing` (indexingService.js:15-53) reduced to its text
decision: `null` when extraction yields nothing or only whitespace
(`!enrichedText || enrichedText.trim().length === 0` — a string trims to
empty exactly when all its characters are whitespace). -/
def prepareEntryText (extraction : Option String) : Option String :=
  match extraction with
  | none => none
  | some t => if t.toList.all Char.isWhitespace then none else some t

/-- `indexEntryWithImages` (indexingService.js:211-277): returns
`(textIndexed, imagesIndexed)` or the propagated per-entry error. -/
def indexEntryWithImages (e : EntryProc) : Except String (Bool × Nat) :=
  match e.extraction with
  | .error msg => .error ("Failed to prepare entry for indexing: " ++ msg)
  | .ok ext =>
      match prepareEntryText ext with
      | none => do
          let n ← e.images
          pure (false, n)
      | some _ =>
          match e.embed with
          | .error msg => .error msg
          | .ok none => do
              let n ← e.images
              pure (false, n)
          | .ok (some _) =>
              match e.upsert with
              | .error msg => .error msg
              | .ok _ => do
                  let n ← e.images
                  pure (true, n)

/-- One record of the capped `errorsList`. -/
structure ErrRec where
  entryUid : String
  contentType : String
  error : String
  deriving Repr, DecidableEq

/-- One `{contentType, entries}` group of `fetchAllEntries`' result. -/
structure ContentGroup where
  contentType : String
  entries : List EntryProc
  deriving Repr, DecidableEq

/-- Running counters of the `indexAllEntries` loop. -/
structure IndexAcc where
  indexed : Nat
  skipped : Nat
  errors : Nat
  imagesIndexed : Nat
  errorsList : List ErrRec
  deriving Repr, DecidableEq

/-- The per-entry body of the loop (indexingService.js:152-172). -/
def stepEntry (contentType : String) (acc : IndexAcc) (e : EntryProc) : IndexAcc :=
  match indexEntryWithImages e with
  | .ok (textIndexed, imgs) =>
      if textIndexed then
        { acc with indexed := acc.indexed + 1, imagesIndexed := acc.imagesIndexed + imgs }
      else
        { acc with skipped := acc.skipped + 1, imagesIndexed := acc.imagesIndexed + imgs }
  | .error msg =>
      { acc with errors := acc.errors + 1,
                 errorsList := acc.errorsList ++ [⟨e.uid, contentType, msg⟩] }

/-- The per-group body: iterate the group's entries. -/
def stepGroup (acc : IndexAcc) (g : ContentGroup) : IndexAcc :=
  g.entries.foldl (stepEntry g.contentType) acc

/-- The summary object `indexAllEntries` resolves with
(indexingService.js:181-189). -/
structure IndexSummary where
  indexed : Nat
  skipped : Nat
  errors : Nat
  imagesIndexed : Nat
  totalProcessed : Nat
  errorsList : List ErrRec
  deriving Repr, DecidableEq

/-- `indexAllEntries` (indexingService.js:101-202) after the CMS fetch:
iterate all content-type groups and their entries, isolating failures per
entry, then cap the error list at 10.  The batch slicing
(`slice(i, i + 50)`) only inserts inter-batch pauses; the sequence of
processed `(group, entry)` pairs is unchanged, so it is elided here. -/
def indexAllEntries (groups : List ContentGroup) : IndexSummary :=
  if groups = [] then
    ⟨0, 0, 0, 0, 0, []⟩
  else
    let acc := groups.foldl stepGroup ⟨0, 0, 0, 0, []⟩
    ⟨acc.indexed, acc.skipped, acc.errors, acc.imagesIndexed,
      acc.indexed + acc.skipped + acc.errors, acc.errorsList.take 10⟩

/-! ### Counting characterization of the loop -/

/-- All `(contentType, entry)` pairs the loop visits, in order. -/
def allPairs (groups : List ContentGroup) : List (String × EntryProc) :=
  groups.flatMap fun g => g.entries.map fun e => (g.contentType, e)

/-- The entry's processing raised an error. -/
def entryThrew (e : EntryProc) : Bool :=
  match indexEntryWithImages e with
  | .error _ => true
  | .ok _ => false

/-- The entry was processed and its text was indexed. -/
def entryIndexed (e : EntryProc) : Bool :=
  match indexEntryWithImages e with
  | .ok (true, _) => true
  | _ => false

/-- The entry was processed without indexing text (the skip signal). -/
def entrySkipped (e : EntryProc) : Bool :=
  match indexEntryWithImages e with
  | .ok (false, _) => true
  | _ => false

/-- The error record a throwing pair contributes. -/
def errRecsOf (l : List (String × EntryProc)) : List ErrRec :=
  l.filterMap fun p =>
    match indexEntryWithImages p.2 with
    | .error msg => some ⟨p.2.uid, p.1, msg⟩
    | .ok _ => none

/-! # Theorems -/

lemma jsToLower_eq_self_of_not_upper {c : Char} (h : ¬(65 ≤ c.toNat ∧ c.toNat ≤ 90)) :
    jsToLower c = c := by
  unfold jsToLower
  rw [if_neg]
  simpa using h

lemma jsToLower_of_lower_alnum {c : Char}
    (h : ((48 ≤ c.toNat && c.toNat ≤ 57) || (97 ≤ c.toNat && c.toNat ≤ 122)) = true) :
    jsToLower c = c := by
  apply jsToLower_eq_self_of_not_upper
  rcases Bool.or_eq_true_iff.mp h with h' | h' <;>
    simp only [Bool.and_eq_true, decide_eq_true_eq] at h' <;> omega

lemma filter_eq_self_of_safe {k : List Char}
    (h : ∀ c ∈ k, ((48 ≤ c.toNat && c.toNat ≤ 57) || (97 ≤ c.toNat && c.toNat ≤ 122)) = true) :
    k.filter isAsciiAlphanum = k := by
  apply List.filter_eq_self.mpr
  intro c hc
  have := h c hc
  unfold isAsciiAlphanum
  rcases Bool.or_eq_true_iff.mp this with h' | h' <;>
    simp only [Bool.and_eq_true, decide_eq_true_eq] at h' <;>
    simp only [Bool.or_eq_true, Bool.and_eq_true, decide_eq_true_eq] <;> omega

lemma map_jsToLower_stem : List.map jsToLower indexNameStem = indexNameStem := by decide

/-- On a safe tenant key the whole pipeline collapses to appending the key to
the stem. -/
lemma generateIndexName_of_safe {k : List Char} (hk : safeTenantKey k) :
    generateIndexName k = .ok (indexNameStem ++ k) := by
  obtain ⟨hne, hlen, hchar⟩ := hk
  unfold generateIndexName
  have hmap : List.map jsToLower k = k := by
    have := List.map_congr_left (f := jsToLower) (g := id)
      (fun c hc => jsToLower_of_lower_alnum (hchar c hc))
    simpa using this
  rw [if_neg hne, filter_eq_self_of_safe hchar, List.map_append, map_jsToLower_stem,
    hmap, List.take_of_length_le]
  have : indexNameStem.length = 16 := by decide
  simp [this]
  omega

lemma char_toNat_ofNat_of_lt {n : Nat} (h : n < 55296) : (Char.ofNat n).toNat = n := by
  unfold Char.ofNat
  rw [dif_pos (Or.inl h)]
  simp [Char.ofNatAux, Char.toNat, UInt32.ofNat', UInt32.toNat]

lemma isIndexNameChar_jsToLower_of_alnum {c : Char} (h : isAsciiAlphanum c = true) :
    isIndexNameChar (jsToLower c) = true := by
  unfold isAsciiAlphanum at h
  unfold jsToLower isIndexNameChar
  simp only [Bool.or_eq_true, Bool.and_eq_true, decide_eq_true_eq] at h
  rcases h with (h | h) | h
  · rw [if_neg (by simp only [Bool.and_eq_true, decide_eq_true_eq]; omega)]
    simp only [Bool.or_eq_true, Bool.and_eq_true, decide_eq_true_eq]
    omega
  · rw [if_pos (by simp only [Bool.and_eq_true, decide_eq_true_eq]; omega)]
    have := char_toNat_ofNat_of_lt (n := c.toNat + 32) (by omega)
    simp only [Bool.or_eq_true, Bool.and_eq_true, decide_eq_true_eq, this]
    omega
  · rw [if_neg (by simp only [Bool.and_eq_true, decide_eq_true_eq]; omega)]
    simp only [Bool.or_eq_true, Bool.and_eq_true, decide_eq_true_eq]
    omega

lemma isIndexNameChar_jsToLower_stem :
    ∀ c ∈ indexNameStem, isIndexNameChar (jsToLower c) = true := by decide

/-- **C1** (amended). `generateIndexName` is a pure deterministic function of
the tenant key, its output uses only charset-safe characters (lowercase
ASCII alphanumerics and hyphens) and is length-bounded by 45; it is
collision-free on tenant keys that are already nonempty lowercase
alphanumeric strings of at most 29 characters — but not on arbitrary
distinct keys (see `generateIndexName_collision`). -/
theorem generateIndexName_deterministic_charset_bounded :
    (∀ k₁ k₂ : List Char, k₁ = k₂ → generateIndexName k₁ = generateIndexName k₂) ∧
    (∀ key nm, generateIndexName key = .ok nm →
      nm.length ≤ 45 ∧ ∀ c ∈ nm, isIndexNameChar c = true) ∧
    (∀ k₁ k₂, safeTenantKey k₁ → safeTenantKey k₂ →
      generateIndexName k₁ = generateIndexName k₂ → k₁ = k₂) := by
  refine ⟨fun k₁ k₂ h => by rw [h], ?_, ?_⟩
  · intro key nm h
    unfold generateIndexName at h
    by_cases hk : key = []
    · rw [if_pos hk] at h; cases h
    · rw [if_neg hk] at h
      cases h
      constructor
      · rw [List.length_take]
        exact min_le_left _ _
      · intro c hc
        have hc' := List.mem_of_mem_take hc
        obtain ⟨d, hd, rfl⟩ := List.mem_map.mp hc'
        rcases List.mem_append.mp hd with hd' | hd'
        · exact isIndexNameChar_jsToLower_stem d hd'
        · exact isIndexNameChar_jsToLower_of_alnum (List.of_mem_filter hd')
  · intro k₁ k₂ h₁ h₂ heq
    rw [generateIndexName_of_safe h₁, generateIndexName_of_safe h₂] at heq
    exact List.append_cancel_left (Except.ok.inj heq)

/-- **C1** witness: the amended theorem applied to the concrete key `aB`. -/
theorem generateIndexName_deterministic_charset_bounded_witness :
    ("semantic-search-ab".toList).length ≤ 45 ∧
      ∀ c ∈ "semantic-search-ab".toList, isIndexNameChar c = true :=
  generateIndexName_deterministic_charset_bounded.2.1
    "aB".toList "semantic-search-ab".toList (by decide)

/-- **C1** counterexample: the tenant keys `a-b` and `ab` are distinct but
map to the same index name, so the naming is not collision-free over all
distinct keys. -/
theorem generateIndexName_collision :
    generateIndexName "a-b".toList = generateIndexName "ab".toList ∧
      "a-b".toList ≠ "ab".toList := by decide

/-- **C2**. `getValidAccessToken` issues a synchronous refresh before
returning if and only if the stored credential expires within 5 minutes of
now; in particular a credential expiring in 2 minutes is refreshed (and the
refreshed access token is what is returned), while one expiring in 1 hour
is returned as stored without any refresh call. -/
theorem getValidAccessToken_refresh_margin :
    (∀ (t : TokenRec) (now : Int) (p : RefreshCallOutcome),
      (getValidAccessToken (some t) now p).refreshCalled = true ↔
        t.expiresAt ≤ now + 5 * 60 * 1000) ∧
    (∀ (t : TokenRec) (now : Int) (a r : String) (e : Option Int),
      t.expiresAt ≤ now + 5 * 60 * 1000 → t.refreshToken ≠ "" → a ≠ "" →
        (getValidAccessToken (some t) now (.ok a (some r) e)).result = .ok a) ∧
    (∀ (t : TokenRec) (now : Int) (p : RefreshCallOutcome),
      t.expiresAt = now + 2 * 60 * 1000 →
        (getValidAccessToken (some t) now p).refreshCalled = true) ∧
    (∀ (t : TokenRec) (now : Int) (p : RefreshCallOutcome),
      t.expiresAt = now + 60 * 60 * 1000 →
        (getValidAccessToken (some t) now p).refreshCalled = false ∧
        (getValidAccessToken (some t) now p).result = .ok t.accessToken) := by
  refine ⟨?_, ?_, ?_, ?_⟩
  · intro t now p
    simp only [getValidAccessToken]
    by_cases h : t.expiresAt ≤ now + 5 * 60 * 1000
    · rw [if_pos h]; simpa using h
    · rw [if_neg h]; simpa using h
  · intro t now a r e hexp hrt ha
    simp only [getValidAccessToken, refreshAccessToken]
    rw [if_pos hexp]
    simp [hrt, ha]
  · intro t now p h
    simp only [getValidAccessToken]
    rw [if_pos (by omega)]
  · intro t now p h
    simp only [getValidAccessToken]
    rw [if_neg (by omega)]
    exact ⟨rfl, rfl⟩

/-- **C2** witness: concrete credentials expiring in 2 minutes and in 1
hour, at `now = 0`. -/
theorem getValidAccessToken_refresh_margin_witness :
    ((⟨"acc", "ref", 120000, 0, true⟩ : TokenRec).expiresAt = 0 + 2 * 60 * 1000 ∧
      (getValidAccessToken (some ⟨"acc", "ref", 120000, 0, true⟩) 0
        (.ok "new" (some "r2") none)).refreshCalled = true) ∧
    ((⟨"acc", "ref", 3600000, 0, true⟩ : TokenRec).expiresAt = 0 + 60 * 60 * 1000 ∧
      (getValidAccessToken (some ⟨"acc", "ref", 3600000, 0, true⟩) 0
        (.ok "new" (some "r2") none)).refreshCalled = false) :=
  ⟨⟨by decide,
    getValidAccessToken_refresh_margin.2.2.1 ⟨"acc", "ref", 120000, 0, true⟩ 0
      (.ok "new" (some "r2") none) (by decide)⟩,
   ⟨by decide,
    (getValidAccessToken_refresh_margin.2.2.2 ⟨"acc", "ref", 3600000, 0, true⟩ 0
      (.ok "new" (some "r2") none) (by decide)).1⟩⟩

/-- **C3** counterexample: a provider 401 on the refresh call makes
`refreshAccessToken` fail with the terminal re-authentication error, but the
stored credential is left untouched — still active — contradicting the
claim that the refresh operation marks it inactive. -/
theorem refreshAccessToken_no_deactivation :
    (refreshAccessToken (some ⟨"acc", "ref", 0, 0, true⟩) 0 (.httpError 401 "unauthorized"))
      = (.error ⟨"Refresh token expired - re-authentication required", 401⟩,
          some ⟨"acc", "ref", 0, 0, true⟩) ∧
    (⟨"acc", "ref", 0, 0, true⟩ : TokenRec).isActive = true := by decide

/-- **C3** (amended). When the OAuth provider rejects the refresh call with
400/401, `tokenService.refreshAccessToken` fails with the terminal 401
"re-authentication required" error but does **not** mark the credential
inactive (the store is returned unchanged); the deactivation the spec
describes is performed instead by `TokenRefreshService.getValidAccessToken`,
which on a failed refresh of an active, near-expiry credential writes
`isActive: false` and throws 401. -/
theorem refreshAccessToken_terminal_store_untouched :
    (∀ (t : TokenRec) (now : Int) (s : Nat) (m : String),
      t.refreshToken ≠ "" → s = 400 ∨ s = 401 →
        refreshAccessToken (some t) now (.httpError s m)
          = (.error ⟨"Refresh token expired - re-authentication required", 401⟩, some t)) ∧
    (∀ (t : TokenRec) (now : Int) (s : Nat) (m : String),
      t.isActive = true → now < t.expiresAt → t.expiresAt ≤ now + 5 * 60 * 1000 →
      s = 400 ∨ s = 401 →
        TokenRefreshService.getValidAccessToken (some t) now (.httpError s m)
          = (.error ⟨"Token refresh failed for stack", 401⟩,
              some { t with isActive := false })) := by
  constructor
  · intro t now s m hrt hs
    simp only [refreshAccessToken]
    rcases hs with rfl | rfl <;> simp [hrt]
  · intro t now s m hact hnotexp hexp hs
    have hfind : findActiveByStackApiKey (some t) now = some t := by
      simp only [findActiveByStackApiKey]
      rw [if_pos ⟨hact, hnotexp⟩]
    obtain ⟨msg, hmsg⟩ :
        ∃ msg, TokenRefreshService.refreshTokenCall t.refreshToken now (.httpError s m)
          = .error msg := by
      rcases hs with rfl | rfl <;> exact ⟨_, rfl⟩
    have hrefresh : TokenRefreshService.refreshAndUpdateToken (some t) now (.httpError s m)
        = (.error msg, some t) := by
      simp only [TokenRefreshService.refreshAndUpdateToken, hfind, hmsg]
    simp only [TokenRefreshService.getValidAccessToken]
    rw [if_neg (not_not_intro hact), if_pos hexp, hrefresh]

/-- **C3** witness: the amended theorem at a concrete active credential
expiring in 2 minutes and a provider 401. -/
theorem refreshAccessToken_terminal_store_untouched_witness :
    (refreshAccessToken (some ⟨"acc", "ref", 120000, 0, true⟩) 0 (.httpError 400 "bad"))
      = (.error ⟨"Refresh token expired - re-authentication required", 401⟩,
          some ⟨"acc", "ref", 120000, 0, true⟩) ∧
    (TokenRefreshService.getValidAccessToken (some ⟨"acc", "ref", 120000, 0, true⟩) 0
        (.httpError 401 "unauthorized"))
      = (.error ⟨"Token refresh failed for stack", 401⟩,
          some ⟨"acc", "ref", 120000, 0, false⟩) :=
  ⟨refreshAccessToken_terminal_store_untouched.1 ⟨"acc", "ref", 120000, 0, true⟩ 0 400 "bad"
      (by decide) (Or.inl rfl),
   refreshAccessToken_terminal_store_untouched.2 ⟨"acc", "ref", 120000, 0, true⟩ 0 401
      "unauthorized" (by decide) (by decide) (by decide) (Or.inr rfl)⟩

/-- **C9** counterexample: two concurrent `getValidAccessToken` calls for
the same near-expiry tenant, interleaved so that both `findOne` reads happen
before either refresh, issue **two** provider refresh calls, not one. -/
theorem getValidAccessToken_concurrent_double_refresh :
    (runSchedule 0 (.ok "new" (some "r2") (some 3600))
        ⟨some ⟨"acc", "ref", 120000, 0, true⟩, 0, [.start, .start]⟩
        [0, 1, 0, 1]).refreshCalls = 2 ∧ (2 : Nat) ≠ 1 := by decide

/-- **C9** (amended). `getValidAccessToken` has no single-flight guard:
under the interleaving in which both calls read the near-expiry credential
before either refresh runs, each call issues its own provider refresh (two
calls); only when the calls are serialized — the second read happens after
the first refresh has stored the new expiry — is a single refresh issued. -/
theorem getValidAccessToken_no_single_flight :
    (runSchedule 0 (.ok "new" (some "r2") (some 3600))
        ⟨some ⟨"acc", "ref", 120000, 0, true⟩, 0, [.start, .start]⟩
        [0, 1, 0, 1]).refreshCalls = 2 ∧
    (runSchedule 0 (.ok "new" (some "r2") (some 3600))
        ⟨some ⟨"acc", "ref", 120000, 0, true⟩, 0, [.start, .start]⟩
        [0, 0, 1, 1]).refreshCalls = 1 := by decide

lemma stepEntry_spec (ct : String) (acc : IndexAcc) (e : EntryProc) :
    stepEntry ct acc e =
      ⟨acc.indexed + (if entryIndexed e then 1 else 0),
       acc.skipped + (if entrySkipped e then 1 else 0),
       acc.errors + (if entryThrew e then 1 else 0),
       acc.imagesIndexed + (match indexEntryWithImages e with | .ok (_, n) => n | .error _ => 0),
       acc.errorsList ++ errRecsOf [(ct, e)]⟩ := by
  unfold stepEntry entryIndexed entrySkipped entryThrew errRecsOf
  match h : indexEntryWithImages e with
  | .ok (true, n) => simp [h]
  | .ok (false, n) => simp [h]
  | .error msg => simp [h]

lemma foldl_stepEntry_spec (ct : String) (entries : List EntryProc) (acc : IndexAcc) :
    entries.foldl (stepEntry ct) acc =
      ⟨acc.indexed + entries.countP entryIndexed,
       acc.skipped + entries.countP entrySkipped,
       acc.errors + entries.countP entryThrew,
       acc.imagesIndexed +
         (entries.map (fun e => match indexEntryWithImages e with
            | .ok (_, n) => n | .error _ => 0)).sum,
       acc.errorsList ++ errRecsOf (entries.map fun e => (ct, e))⟩ := by
  induction entries generalizing acc with
  | nil => simp [errRecsOf]
  | cons e es ih =>
      rw [List.foldl_cons, stepEntry_spec, ih]
      simp only [List.countP_cons, List.map_cons, List.sum_cons, IndexAcc.mk.injEq]
      refine ⟨?_, ?_, ?_, ?_, ?_⟩
      · match h : indexEntryWithImages e with
        | .ok (true, n) => simp [entryIndexed, h]; omega
        | .ok (false, n) => simp [entryIndexed, h]
        | .error msg => simp [entryIndexed, h]
      · match h : indexEntryWithImages e with
        | .ok (true, n) => simp [entrySkipped, h]
        | .ok (false, n) => simp [entrySkipped, h]; omega
        | .error msg => simp [entrySkipped, h]
      · match h : indexEntryWithImages e with
        | .ok (true, n) => simp [entryThrew, h]
        | .ok (false, n) => simp [entryThrew, h]
        | .error msg => simp [entryThrew, h]; omega
      · match h : indexEntryWithImages e with
        | .ok (true, n) => simp [h]; omega
        | .ok (false, n) => simp [h]; omega
        | .error msg => simp [h]
      · simp only [errRecsOf, List.filterMap_cons, List.filterMap_nil]
        match h : indexEntryWithImages e with
        | .ok (b, n) => simp [h]
        | .error msg => simp [h]

lemma foldl_stepGroup_spec (groups : List ContentGroup) (acc : IndexAcc) :
    groups.foldl stepGroup acc =
      ⟨acc.indexed + (allPairs groups).countP (fun p => entryIndexed p.2),
       acc.skipped + (allPairs groups).countP (fun p => entrySkipped p.2),
       acc.errors + (allPairs groups).countP (fun p => entryThrew p.2),
       acc.imagesIndexed +
         ((allPairs groups).map (fun p => match indexEntryWithImages p.2 with
            | .ok (_, n) => n | .error _ => 0)).sum,
       acc.errorsList ++ errRecsOf (allPairs groups)⟩ := by
  induction groups generalizing acc with
  | nil => simp [allPairs, errRecsOf]
  | cons g gs ih =>
      have hg : stepGroup acc g =
          ⟨acc.indexed + g.entries.countP entryIndexed,
           acc.skipped + g.entries.countP entrySkipped,
           acc.errors + g.entries.countP entryThrew,
           acc.imagesIndexed +
             (g.entries.map (fun e => match indexEntryWithImages e with
                | .ok (_, n) => n | .error _ => 0)).sum,
           acc.errorsList ++ errRecsOf (g.entries.map fun e => (g.contentType, e))⟩ :=
        foldl_stepEntry_spec g.contentType g.entries acc
      rw [List.foldl_cons, hg, ih]
      simp only [allPairs, List.flatMap_cons, List.countP_append, List.map_append,
        List.sum_append, errRecsOf, List.filterMap_append, List.countP_map,
        List.map_map, IndexAcc.mk.injEq]
      refine ⟨?_, ?_, ?_, ?_, ?_⟩
      · exact Nat.add_assoc _ _ _
      · exact Nat.add_assoc _ _ _
      · exact Nat.add_assoc _ _ _
      · exact Nat.add_assoc _ _ _
      · simp [List.append_assoc]

lemma count_partition (l : List (String × EntryProc)) :
    l.countP (fun p => entryIndexed p.2) + l.countP (fun p => entrySkipped p.2) +
      l.countP (fun p => entryThrew p.2) = l.length := by
  induction l with
  | nil => simp
  | cons x xs ih =>
      simp only [List.countP_cons, List.length_cons]
      have hone : (if entryIndexed x.2 then 1 else 0) + (if entrySkipped x.2 then 1 else 0)
          + (if entryThrew x.2 then 1 else 0) = 1 := by
        unfold entryIndexed entrySkipped entryThrew
        match h : indexEntryWithImages x.2 with
        | .ok (true, n) => simp [h]
        | .ok (false, n) => simp [h]
        | .error m => simp [h]
      omega

lemma indexAllEntries_counts (groups : List ContentGroup) :
    (indexAllEntries groups).indexed = (allPairs groups).countP (fun p => entryIndexed p.2) ∧
    (indexAllEntries groups).skipped = (allPairs groups).countP (fun p => entrySkipped p.2) ∧
    (indexAllEntries groups).errors = (allPairs groups).countP (fun p => entryThrew p.2) ∧
    (indexAllEntries groups).errorsList = (errRecsOf (allPairs groups)).take 10 := by
  by_cases hg : groups = []
  · subst hg
    simp [indexAllEntries, allPairs, errRecsOf]
  · unfold indexAllEntries
    rw [if_neg hg, foldl_stepGroup_spec]
    simp

/-- **C5**. Per-entry failure isolation in `indexAllEntries`: each throwing
entry increments the error counter and contributes its
`{entryUid, contentType, error}` record to the capped error list, the batch
never aborts (every entry is accounted for: `indexed + skipped + errors`
equals the number of entries), and the concrete 3-entry scenario in which
entry 2's embedding call fails yields
`{indexed: 2, skipped: 0, errors: 1, errorsList: [entry 2's record]}`.
(The code names the failure counter `errors`, not `failed`.) -/
theorem indexAllEntries_failure_isolation :
    (∀ groups : List ContentGroup,
      (indexAllEntries groups).errors = (allPairs groups).countP (fun p => entryThrew p.2) ∧
      (indexAllEntries groups).indexed + (indexAllEntries groups).skipped +
          (indexAllEntries groups).errors = (allPairs groups).length ∧
      (indexAllEntries groups).errorsList = (errRecsOf (allPairs groups)).take 10) ∧
    indexAllEntries
        [⟨"blog",
          [⟨"e1", .ok (some "hello"), .ok (some [1]), .ok (), .ok 0⟩,
           ⟨"e2", .ok (some "world"), .error "boom", .ok (), .ok 0⟩,
           ⟨"e3", .ok (some "again"), .ok (some [1]), .ok (), .ok 0⟩]⟩]
      = ⟨2, 0, 1, 0, 3, [⟨"e2", "blog", "boom"⟩]⟩ := by
  constructor
  · intro groups
    obtain ⟨h1, h2, h3, h4⟩ := indexAllEntries_counts groups
    refine ⟨h3, ?_, h4⟩
    rw [h1, h2, h3]
    exact count_partition _
  · decide

/-- **C6**. An entry whose normalization yields empty extractable text
(extraction returned nothing, or text that trims to empty) is the skip
signal, not an error: provided its own image sub-pipeline does not throw,
`indexEntryWithImages` returns `textIndexed = false` rather than an error,
and in any batch summary the `skipped` counter counts exactly such
skip-outcomes while `errors` counts exactly the throwing entries — so an
empty-text entry is counted under `skipped` and never under `errors`. -/
theorem emptyText_skipped_never_failed :
    (∀ (e : EntryProc) (ext : Option String) (k : Nat),
      e.extraction = .ok ext → prepareEntryText ext = none → e.images = .ok k →
        indexEntryWithImages e = .ok (false, k) ∧
        entrySkipped e = true ∧ entryThrew e = false) ∧
    (∀ groups : List ContentGroup,
      (indexAllEntries groups).skipped = (allPairs groups).countP (fun p => entrySkipped p.2) ∧
      (indexAllEntries groups).errors = (allPairs groups).countP (fun p => entryThrew p.2)) := by
  constructor
  · intro e ext k hext hprep himg
    have hrun : indexEntryWithImages e = .ok (false, k) := by
      simp only [indexEntryWithImages, hext, hprep, himg]
      rfl
    refine ⟨hrun, ?_, ?_⟩
    · simp only [entrySkipped, hrun]
    · simp only [entryThrew, hrun]
  · intro groups
    obtain ⟨h1, h2, h3, h4⟩ := indexAllEntries_counts groups
    exact ⟨h2, h3⟩

/-- **C6** witness: a concrete entry whose extracted text is whitespace
only, with a clean image sub-pipeline, is a skip and not an error. -/
theorem emptyText_skipped_never_failed_witness :
    indexEntryWithImages ⟨"e0", .ok (some "  "), .ok none, .ok (), .ok 0⟩ = .ok (false, 0) ∧
    entrySkipped ⟨"e0", .ok (some "  "), .ok none, .ok (), .ok 0⟩ = true ∧
    entryThrew ⟨"e0", .ok (some "  "), .ok none, .ok (), .ok 0⟩ = false :=
  emptyText_skipped_never_failed.1 ⟨"e0", .ok (some "  "), .ok none, .ok (), .ok 0⟩
    (some "  ") 0 rfl (by decide) rfl

/-- **C7**. When the reranking call fails — the provider call is rejected
(error/timeout) or its response is malformed (no `results` field) —
`rerankResults` returns the candidates exactly as given, in their original
vector-similarity order, instead of propagating an error. -/
theorem rerankResults_graceful_fallback :
    ∀ (query : String) (results : List SearchResult) (topK : Int)
      (provider : Except String (Option (List RankedItem))),
      query ≠ "" →
      ((∃ e, provider = .error e) ∨ provider = .ok none) →
      rerankResults query results topK provider = .ok results := by
  intro q rs k p hq hp
  simp only [rerankResults]
  rw [if_neg hq]
  by_cases hrs : rs = []
  · rw [if_pos hrs]
  · rw [if_neg hrs]
    by_cases hd : ((rs.map (·.text)).filter (fun t => t ≠ "")) = []
    · rw [if_pos hd]
    · rw [if_neg hd]
      rcases hp with ⟨e, rfl⟩ | rfl <;> rfl

/-- **C7** witness: a rejected provider call on one concrete candidate. -/
theorem rerankResults_graceful_fallback_witness :
    rerankResults "q" [⟨"id1", 1, "some text", "blog", "en-us", none, none⟩] 10
        (.error "timeout of 30000ms exceeded")
      = .ok [⟨"id1", 1, "some text", "blog", "en-us", none, none⟩] :=
  rerankResults_graceful_fallback "q" [⟨"id1", 1, "some text", "blog", "en-us", none, none⟩]
    10 (.error "timeout of 30000ms exceeded") (by decide)
    (Or.inl ⟨"timeout of 30000ms exceeded", rfl⟩)

/-- **C10**. `VectorSearchService.search` rejects an empty query embedding
and any `topK` outside 1..100 with a validation error before issuing any
query to the vector store; whenever a query is issued its `topK` is within
1..100, and the result list is never longer than what the store returned —
so no single vector search requests or returns more than 100 candidates
(given the store honors the requested `topK`). -/
theorem vectorSearch_validation_bounds :
    (∀ (topK : Int) fil thr prov,
      VectorSearchService.search [] topK fil thr prov
        = (.error ⟨"Query embedding must be a non-empty array", 400⟩, none)) ∧
    (∀ (emb : List Rat) (topK : Int) fil thr prov, emb ≠ [] → topK < 1 ∨ topK > 100 →
      VectorSearchService.search emb topK fil thr prov
        = (.error ⟨"topK must be between 1 and 100", 400⟩, none)) ∧
    (∀ (emb : List Rat) (topK : Int) fil thr prov k,
      (VectorSearchService.search emb topK fil thr prov).2 = some k →
        1 ≤ k ∧ k ≤ 100) ∧
    (∀ (emb : List Rat) (topK : Int) fil thr ms res issued,
      VectorSearchService.search emb topK fil thr (.ok ms) = (.ok res, issued) →
        res.length ≤ ms.length) := by
  refine ⟨?_, ?_, ?_, ?_⟩
  · intro topK fil thr prov
    simp [VectorSearchService.search]
  · intro emb topK fil thr prov hemb htk
    simp only [VectorSearchService.search]
    rw [if_neg hemb, if_pos htk]
  · intro emb topK fil thr prov k h
    simp only [VectorSearchService.search] at h
    by_cases hemb : emb = []
    · rw [if_pos hemb] at h; cases h
    · rw [if_neg hemb] at h
      by_cases htk : topK < 1 ∨ topK > 100
      · rw [if_pos htk] at h; cases h
      · rw [if_neg htk] at h
        cases prov with
        | error e => cases h; omega
        | ok ms => cases h; omega
  · intro emb topK fil thr ms res issued h
    simp only [VectorSearchService.search] at h
    by_cases hemb : emb = []
    · rw [if_pos hemb] at h; cases h
    · rw [if_neg hemb] at h
      by_cases htk : topK < 1 ∨ topK > 100
      · rw [if_pos htk] at h; cases h
      · rw [if_neg htk] at h
        have : res = (ms.filter (fun m => thr ≤ m.score)).map toSearchResult := by
          have := congrArg Prod.fst h
          simpa using this.symm
        rw [this, List.length_map]
        exact List.length_filter_le _ _

/-- **C10** witness: the bounds applied at a concrete out-of-range call and
a concrete issued query. -/
theorem vectorSearch_validation_bounds_witness :
    VectorSearchService.search ([1] : List Rat) 101 [] 0 (.ok [])
        = (.error ⟨"topK must be between 1 and 100", 400⟩, none) ∧
    ((1 : Int) ≤ 10 ∧ (10 : Int) ≤ 100) :=
  ⟨vectorSearch_validation_bounds.2.1 [1] 101 [] 0 (.ok []) (by decide) (by decide),
   vectorSearch_validation_bounds.2.2.1 [1] 10 [] 0 (.ok []) 10 (by decide)⟩

lemma search_issued (emb : List Rat) (topK : Int) (fil : List (String × String))
    (thr : Rat) (prov : Except String (List PineMatch))
    (hemb : emb ≠ []) (htk : ¬(topK < 1 ∨ topK > 100)) :
    (VectorSearchService.search emb topK fil thr prov).2 = some topK := by
  simp only [VectorSearchService.search]
  rw [if_neg hemb, if_neg htk]
  cases prov <;> rfl

/-- **C4** counterexample: with `topK = 15` the pipeline queries the bound
index for `Math.min(topK * 2, 20) = 20` candidates, not
`max(topK * 2, topK) = 30` as claimed. -/
theorem semanticSearch_candidate_count_counterexample :
    (semanticSearch "q" 15
        ⟨.ok (some [1]), fun _ => .ok [], .ok none, fun _ => .ok none⟩).2.requestedK
      = some 20 ∧ max (15 * 2) 15 = 30 ∧ (20 : Int) ≠ 30 := by
  refine ⟨?_, by decide, by decide⟩
  rfl

/-- **C4** (amended). For every search whose query embedding succeeds and
whose requested count is at least 1, the pipeline queries the bound vector
index for exactly `min(topK * 2, 20)` candidates; this coincides with the
spec's `topK * 2` only when `topK ≤ 10`. -/
theorem semanticSearch_candidate_count :
    ∀ (query : String) (topK : Int) (o : SearchOracles) (v : List Rat),
      o.embed = .ok (some v) → v ≠ [] → 1 ≤ topK →
      (semanticSearch query topK o).2.requestedK = some (min (topK * 2) 20) ∧
      (topK ≤ 10 → min (topK * 2) 20 = topK * 2) := by
  intro q topK o v hemb hv htk
  refine ⟨?_, fun h => by omega⟩
  have hk : ¬(min (topK * 2) 20 < 1 ∨ min (topK * 2) 20 > 100) := by omega
  have hiss := search_issued v (min (topK * 2) 20) [] (1 / 10)
    (o.vsearch (min (topK * 2) 20)) hv hk
  simp only [semanticSearch, hemb]
  rcases hs : VectorSearchService.search v (min (topK * 2) 20) [] (1 / 10)
      (o.vsearch (min (topK * 2) 20)) with ⟨res, issued⟩
  rw [hs] at hiss
  cases res with
  | error e => simpa using hiss
  | ok vr =>
      by_cases hvr : vr = []
      · simpa [hvr] using hiss
      · cases hrr : rerankResults q vr topK o.rerank with
        | error e => simpa [hvr, hrr] using hiss
        | ok rr => simpa [hvr, hrr] using hiss

/-- **C4** witness: the amended count at `topK = 4`. -/
theorem semanticSearch_candidate_count_witness :
    (semanticSearch "q" 4
        ⟨.ok (some [1]), fun _ => .ok [], .ok none, fun _ => .ok none⟩).2.requestedK
      = some (min (4 * 2) 20) ∧ ((4 : Int) ≤ 10 → min ((4 : Int) * 2) 20 = 4 * 2) :=
  semanticSearch_candidate_count "q" 4
    ⟨.ok (some [1]), fun _ => .ok [], .ok none, fun _ => .ok none⟩ [1]
    rfl (by decide) (by decide)

/-- **C8**. A search over a tenant whose index returns no matches is a
valid non-error outcome: the response is `success: true` with `results: []`
and zero totals, and a SearchLog record is still written with
`success = true` and `resultsCount = 0`. -/
theorem semanticSearch_empty_result :
    ∀ (query : String) (topK : Int) (o : SearchOracles) (v : List Rat),
      o.embed = .ok (some v) → v ≠ [] → 1 ≤ topK →
      o.vsearch (min (topK * 2) 20) = .ok [] →
      (semanticSearch query topK o).1
        = .ok { success := true, query := query, results := [], count := 0,
                message := some "No matching entries found.",
                totalResults := 0, reranked := false } ∧
      (semanticSearch query topK o).2.logs = [⟨query, 0, true, none⟩] := by
  intro q topK o v hemb hv htk hvs
  have hk : ¬(min (topK * 2) 20 < 1 ∨ min (topK * 2) 20 > 100) := by omega
  have hsearch : VectorSearchService.search v (min (topK * 2) 20) [] (1 / 10)
      (o.vsearch (min (topK * 2) 20)) = (.ok [], some (min (topK * 2) 20)) := by
    simp only [VectorSearchService.search, hvs]
    rw [if_neg hv, if_neg hk]
    rfl
  simp only [semanticSearch, hemb, hsearch]
  exact ⟨rfl, rfl⟩

/-- **C8** witness: a concrete query against an index that returns no
matches. -/
theorem semanticSearch_empty_result_witness :
    (semanticSearch "capybara" 5
        ⟨.ok (some [1]), fun _ => .ok [], .ok none, fun _ => .ok none⟩).1
      = .ok { success := true, query := "capybara", results := [], count := 0,
              message := some "No matching entries found.",
              totalResults := 0, reranked := false } ∧
    (semanticSearch "capybara" 5
        ⟨.ok (some [1]), fun _ => .ok [], .ok none, fun _ => .ok none⟩).2.logs
      = [⟨"capybara", 0, true, none⟩] :=
  semanticSearch_empty_result "capybara" 5
    ⟨.ok (some [1]), fun _ => .ok [], .ok none, fun _ => .ok none⟩ [1]
    rfl (by decide) (by decide) rfl

end SemanticSearch
